import Mathlib

/-!
Shallow embedding of the Spotify-Scraper program (src/app.py) and proofs about it.

Conventions of the embedding:
* Python `str` values are modelled as `String` / `List Char`, restricted to the
  ASCII fragment the scraped cells live in (whitespace = space, tab, LF, CR,
  vertical tab, form feed; digits = '0'..'9').
* Python `float` results are modelled as exact rationals (`ℚ`); the numeric
  literals involved in the unit arithmetic of the program (`1e9`, `1e6`, decimal
  cell values) are all exactly representable, so the rational model agrees
  with IEEE doubles on every value the proofs touch.
* `None` is `Option.none`; a raised exception is `Except.error`.
* `float(s)` / `int(s)` are modelled on their decimal fragment
  (optional sign, digits, decimal point, optional exponent); the special
  forms `inf` / `nan` / underscore separators never occur in the scraped
  domain and are outside the model.
-/

namespace SpotifyScraper

/-- Whitespace test matching the Python `str.strip` / `str.split` (ASCII fragment). -/
def isWs (c : Char) : Bool :=
  c = ' ' || c = '\t' || c = '\n' || c = '\r' || c = '\x0b' || c = '\x0c'

/-- Left strip, as in Python `str.lstrip`. -/
def trimLeft (l : List Char) : List Char := l.dropWhile isWs

/-- Right strip, as in Python `str.rstrip`. -/
def trimRight (l : List Char) : List Char := (l.reverse.dropWhile isWs).reverse

/-- Python `str.strip()`: drop whitespace from both ends. -/
def pyStrip (l : List Char) : List Char := trimRight (trimLeft l)

/-- Python `str.lower()` (ASCII fragment). -/
def lowerL (l : List Char) : List Char := l.map Char.toLower

/-- Python substring membership `p in s`. -/
def hasSub (p : List Char) : List Char → Bool
  | [] => p.isEmpty
  | c :: t => p.isPrefixOf (c :: t) || hasSub p t

/-- Fuel-driven worker for `removeAllSub`; each step consumes at least one
character, so fuel equal to the length makes it total (the fuel form keeps the
definition structurally recursive, hence kernel-computable). -/
def removeSubFuel (p : List Char) : Nat → List Char → List Char
  | _, [] => []
  | 0, l => l
  | fuel + 1, c :: t =>
    if !p.isEmpty && p.isPrefixOf (c :: t) then
      removeSubFuel p fuel ((c :: t).drop p.length)
    else
      c :: removeSubFuel p fuel t

/-- Python `s.replace(p, '')` for a pattern `p`: remove every (left-to-right,
non-overlapping) occurrence of `p` from `s`. -/
def removeAllSub (p l : List Char) : List Char := removeSubFuel p l.length l

/-- Numeric value of a digit string (most significant first). -/
def digitsVal (l : List Char) : Nat :=
  l.foldl (fun a c => a * 10 + (c.toNat - '0'.toNat)) 0

/-- Python `str.isdigit()` (ASCII fragment): nonempty and all digits. -/
def isDigitsL (l : List Char) : Bool := !l.isEmpty && l.all Char.isDigit

/-- Consume an optional leading sign, returning the sign as `1` or `-1`. -/
def parseSign : List Char → Int × List Char
  | '+' :: t => (1, t)
  | '-' :: t => (-1, t)
  | l => (1, l)

/-- Exponent suffix of a float literal: after the `e`/`E`, an optional sign and
a nonempty digit run; the resulting value is `num / 10 ^ fl` scaled by the
(signed) power of ten. Rationals are built with `mkRat`, the exact value of
the decimal literal. -/
def expPart (num : Int) (fl : Nat) (t : List Char) : Option ℚ :=
  let (es, t1) := parseSign t
  let ed := t1.takeWhile Char.isDigit
  if ed.isEmpty || !(t1.dropWhile Char.isDigit).isEmpty then none
  else if es = 1 then some (mkRat (num * 10 ^ digitsVal ed) (10 ^ fl))
  else some (mkRat num (10 ^ (fl + digitsVal ed)))

/-- Core of Python `float(s)` on an already stripped string: optional sign,
then `digits [. digits]` or `. digits` or `digits .`, then an optional
exponent part, and nothing else. -/
def pyFloatCore (l : List Char) : Option ℚ :=
  let (sgn, l1) := parseSign l
  let ip := l1.takeWhile Char.isDigit
  let l2 := l1.dropWhile Char.isDigit
  let (fp, l3) :=
    match l2 with
    | '.' :: t => (t.takeWhile Char.isDigit, t.dropWhile Char.isDigit)
    | _ => (([] : List Char), l2)
  if ip.isEmpty && fp.isEmpty then none
  else
    let num : Int := sgn * (digitsVal (ip ++ fp) : Int)
    match l3 with
    | [] => some (mkRat num (10 ^ fp.length))
    | 'e' :: t => expPart num fp.length t
    | 'E' :: t => expPart num fp.length t
    | _ => none

/-- Python `float(s)`: tolerates surrounding whitespace, otherwise `pyFloatCore`. -/
def pyFloat (l : List Char) : Option ℚ := pyFloatCore (pyStrip l)

/-- Python `int(s)` (decimal fragment): optional surrounding whitespace,
optional sign, nonempty digits. -/
def pyIntStr (l : List Char) : Option Int :=
  let t := pyStrip l
  let (sgn, t1) := parseSign t
  if isDigitsL t1 then some (sgn * (digitsVal t1 : Int)) else none

/-- Truncation toward zero, as Python `int(f)` on a float. -/
def ratTrunc (q : ℚ) : Int := Int.tdiv q.num (Int.ofNat q.den)

/-- Model of `safe_float` (src/app.py lines 44-51): empty/None input gives
`None`; otherwise strip, delete every comma, and parse as float, turning a
parse failure into `None`. -/
def safe_floatL (l : List Char) : Option ℚ :=
  if l.isEmpty then none
  else pyFloat ((pyStrip l).filter (fun c => c ≠ ','))

/-- String-level wrapper for `safe_floatL`. -/
def safe_float (s : String) : Option ℚ := safe_floatL s.data

/-- Model of `safe_int` (src/app.py lines 35-42): `int(float(...))` on the
stripped, comma-free text; failures give `None`. -/
def safe_intL (l : List Char) : Option Int :=
  (safe_floatL l).map ratTrunc

/-- String-level wrapper for `safe_intL`. -/
def safe_int (s : String) : Option Int := safe_intL s.data

/-- Single-pass worker for `wsTokens`: `cur` is the current token, reversed. -/
def wsTokensGo (cur : List Char) : List Char → List (List Char)
  | [] => if cur.isEmpty then [] else [cur.reverse]
  | c :: t =>
    if isWs c then
      if cur.isEmpty then wsTokensGo [] t else cur.reverse :: wsTokensGo [] t
    else wsTokensGo (c :: cur) t

/-- Python `str.split()`: the maximal whitespace-free tokens, in order. -/
def wsTokens (l : List Char) : List (List Char) := wsTokensGo [] l

/-- Index of the first `[` that has some `]` after it (the start of the match
of the regex `\[.*\]`). -/
def firstOpenIdx : List Char → Option Nat
  | [] => none
  | c :: t =>
    if c = '[' && t.contains ']' then some 0 else (firstOpenIdx t).map (· + 1)

/-- Index of the last `]` in the string (the greedy end of `\[.*\]`). -/
def lastCloseIdx (s : List Char) : Option Nat :=
  match s.reverse.findIdx? (fun c => c = ']') with
  | some k => some (s.length - 1 - k)
  | none => none

/-- Model of `re.sub(r'\[.*\]', '', s)` on newline-free text (the scraped
cells): the greedy pattern removes everything from the first `[` that is
followed by a `]` up to the last `]` of the string. -/
def stripBrackets (s : List Char) : List Char :=
  match firstOpenIdx s with
  | none => s
  | some i =>
    match lastCloseIdx s with
    | some j => s.take i ++ s.drop (j + 1)
    | none => s

/-- Python regex word character (ASCII fragment), for `\b` boundaries. -/
def isWordChar (c : Char) : Bool := c.isAlphanum || c = '_'

/-- Match of `\b(19|20)\d{2}\b` at the head of the list, `prev` being the
character just before it (if any). -/
def yearAt (prev : Option Char) : List Char → Option Int
  | a :: b :: c :: d :: rest =>
    if ((a = '1' && b = '9') || (a = '2' && b = '0')) && c.isDigit && d.isDigit
        && (match prev with | none => true | some p => !isWordChar p)
        && (match rest with | [] => true | r :: _ => !isWordChar r)
    then some ((digitsVal [a, b, c, d] : Int))
    else none
  | _ => none

/-- Scan for the first match of `\b(19|20)\d{2}\b`, as `re.search` does. -/
def yearSearchAux (prev : Option Char) : List Char → Option Int
  | [] => none
  | c :: t =>
    match yearAt prev (c :: t) with
    | some y => some y
    | none => yearSearchAux (some c) t

/-- Model of `re.search(r'\b(19|20)\d{2}\b', s)` returning the matched year. -/
def yearSearch (l : List Char) : Option Int := yearSearchAux none l

/-- The cleaning applied by `parse_year` before matching: remove the footnote
bracket span, then strip whitespace (src/app.py line 59). -/
def yearCleanText (s : String) : List Char := pyStrip (stripBrackets s.data)

/-- Model of `parse_year` (src/app.py lines 53-79): empty gives `None`; strip
footnote brackets and whitespace; then, in order, the first `\b(19|20)\d{2}\b`
match, a pure digit string parsed directly, or the last of at least three
whitespace-separated tokens parsed as an int (parse failure caught to `None`). -/
def parse_year (s : String) : Option Int :=
  if s.data.isEmpty then none
  else
    match yearSearch (yearCleanText s) with
    | some y => some y
    | none =>
      if isDigitsL (yearCleanText s) then some ((digitsVal (yearCleanText s) : Int))
      else if 3 ≤ (wsTokens (yearCleanText s)).length then
        pyIntStr ((wsTokens (yearCleanText s)).getLastD [])
      else none

/-- Spec step one of `extractYear`: first 4-digit token starting `19`/`20`. -/
def stepYearToken (t : List Char) : Option Int := yearSearch t

/-- Spec step two of `extractYear`: purely-digit text parsed directly. -/
def stepPureDigits (t : List Char) : Option Int :=
  if isDigitsL t then some ((digitsVal t : Int)) else none

/-- Spec step three of `extractYear`: with at least three whitespace-separated
tokens, the last token parsed as an integer (else null). -/
def stepLongFormLast (t : List Char) : Option Int :=
  if 3 ≤ (wsTokens t).length then pyIntStr ((wsTokens t).getLastD []) else none

/-- The `extractYear` pipeline exactly as the specification words it: strip
bracketed footnotes, then try the three steps in order, null if none applies. -/
def extractYearSpec (s : String) : Option Int :=
  if s.data.isEmpty then none
  else
    (stepYearToken (yearCleanText s)).orElse fun _ =>
      (stepPureDigits (yearCleanText s)).orElse fun _ => stepLongFormLast (yearCleanText s)

/-- Full month names recognised by `%B` (English locale), lowercased. -/
def monthNum (t : List Char) : Option Nat :=
  if t = "january".data then some 1
  else if t = "february".data then some 2
  else if t = "march".data then some 3
  else if t = "april".data then some 4
  else if t = "may".data then some 5
  else if t = "june".data then some 6
  else if t = "july".data then some 7
  else if t = "august".data then some 8
  else if t = "september".data then some 9
  else if t = "october".data then some 10
  else if t = "november".data then some 11
  else if t = "december".data then some 12
  else none

/-- Day token of `%d`: the regex `(3[01]|[12]\d|0[1-9]|[1-9])` matched against
a whole whitespace-delimited token. -/
def isDayTok (d : List Char) : Bool :=
  match d with
  | [a] => '1' ≤ a && a ≤ '9'
  | [a, b] =>
    (a = '3' && (b = '0' || b = '1')) ||
    ((a = '1' || a = '2') && b.isDigit) ||
    (a = '0' && '1' ≤ b && b ≤ '9')
  | _ => false

/-- Gregorian leap-year rule used by `datetime`. -/
def leapYear (y : Nat) : Bool := y % 4 = 0 && (y % 100 ≠ 0 || y % 400 = 0)

/-- Days in a month, with the leap-year rule for February. -/
def daysInMonth (m y : Nat) : Nat :=
  if m = 2 then (if leapYear y then 29 else 28)
  else if m = 4 || m = 6 || m = 9 || m = 11 then 30
  else 31

/-- The string neither starts nor ends with whitespace (and is nonempty);
`strptime('%d %B %Y')` anchors at both ends, so outer whitespace is rejected. -/
def noOuterWs (l : List Char) : Bool :=
  (match l.head? with | some c => !isWs c | none => false) &&
  (match l.getLast? with | some c => !isWs c | none => false)

/-- Decimal digits of a natural number, most significant first. -/
def natDigitsStr (n : Nat) : List Char := Nat.toDigits 10 n

/-- Two-digit zero-padded decimal, as `%m` / `%d` in `strftime`. -/
def pad2 (n : Nat) : List Char :=
  if n < 10 then '0' :: Nat.toDigits 10 n else Nat.toDigits 10 n

/-- Output of `date_obj.strftime('%Y-%m-%d')`. -/
def fmtDate (y m d : Nat) : List Char :=
  natDigitsStr y ++ '-' :: (pad2 m ++ '-' :: pad2 d)

/-- The strict `day month-name year` shape: the full match of the regex that
`strptime('%d %B %Y')` compiles — a `%d` day token, one-or-more whitespace, a
full English month name up to case, one-or-more whitespace and a four-digit
year, anchored at both ends (hence exactly three whitespace-separated tokens
and no outer whitespace). -/
def strictDMYb (l : List Char) : Bool :=
  noOuterWs l &&
  (match wsTokens l with
   | [d, m, y] =>
     isDayTok d && (monthNum (lowerL m)).isSome && y.length == 4 && y.all Char.isDigit
   | _ => false)

/-- Model of `parse_date` (src/app.py lines 81-91): empty gives `None`;
otherwise `datetime.strptime(s, '%d %B %Y')` — the full regex match captured
by `strictDMYb`, followed by the calendar validation `datetime` performs —
reformatted as ISO `%Y-%m-%d`; any failure gives `None`. -/
def parse_dateL (l : List Char) : Option (List Char) :=
  if l.isEmpty then none
  else if strictDMYb l then
    match wsTokens l with
    | [d, m, y] =>
      match monthNum (lowerL m) with
      | some mm =>
        if 1 ≤ digitsVal y ∧ digitsVal d ≤ daysInMonth mm (digitsVal y) then
          some (fmtDate (digitsVal y) mm (digitsVal d))
        else none
      | none => none
    | _ => none
  else none

/-- String-level wrapper for `parse_dateL`. -/
def parse_date (s : String) : Option String := (parse_dateL s.data).map String.mk

/-- Exact multiplication of a rational by `10 ^ k`, standing for the
multiplication in the program by the float literals `1e9` / `1e6` (both powers of
ten are exactly representable, so the rational model agrees). -/
def mulPow10 (q : ℚ) (k : Nat) : ℚ := mkRat (q.num * 10 ^ k) q.den

/-- Python `s.split('[')[0]`: the prefix before the first `[`. -/
def beforeBracket (l : List Char) : List Char := l.takeWhile (fun c => c ≠ '[')

deriving instance DecidableEq for Except

/-- The normalization of the measure cell text before unit handling
(src/app.py line 168): truncate at the first `[`, strip, lowercase. -/
def normMeasureText (s : String) : List Char := lowerL (pyStrip (beforeBracket s.data))

/-- Model of the streams conversion (src/app.py lines 168-174): the cell text
is truncated at the first `[`, stripped and lowercased; if it contains
`billion` (resp. `million`) the text with every ` billion` (resp. ` million`)
removed is parsed by `safe_float` and multiplied by `1e9` (resp. `1e6`) —
multiplying the `None` of a failed parse raises `TypeError`, modelled as
`Except.error ()`; otherwise the comma-free text is parsed by `safe_float`. -/
def toAbsoluteMeasure (s : String) : Except Unit (Option ℚ) :=
  if hasSub "billion".data (normMeasureText s) then
    match safe_floatL (removeAllSub " billion".data (normMeasureText s)) with
    | some q => Except.ok (some (mulPow10 q 9))
    | none => Except.error ()
  else if hasSub "million".data (normMeasureText s) then
    match safe_floatL (removeAllSub " million".data (normMeasureText s)) with
    | some q => Except.ok (some (mulPow10 q 6))
    | none => Except.error ()
  else Except.ok (safe_floatL ((normMeasureText s).filter (fun c => c ≠ ',')))

/-- One table cell: its visible text, and the text of an embedded
`span.date-style` element when one exists (used only by column 3). -/
structure Cell where
  text : String
  dateSpan : Option String
deriving DecidableEq

/-- Cell with no embedded date span. -/
def cellOf (t : String) : Cell := ⟨t, none⟩

/-- One normalized record, with the columns of the `spotify_records` table
that the scraper fills (the synthetic `id` is assigned by the store). -/
structure RowRecord where
  scraping_date : String
  rank : Option Int
  song : String
  artist : String
  streams : Option ℚ
  release_year : Option Int
  daily_average : Option ℚ
  record_date : Option String
  days_on_record : Option Int
deriving DecidableEq

/-- Model of the per-row body of the scraping loop (src/app.py lines
161-203), for a row with at least six cells: extract and clean each column;
the only statement there that can raise is the streams unit multiplication
(`None * 1e9` / `None * 1e6`), surfaced as `Except.error ()`. Rows with
fewer than six cells are never passed here (the caller skips them first). -/
def processRow (today : String) (cells : List Cell) : Except Unit RowRecord :=
  match cells with
  | c0 :: c1 :: c2 :: c3 :: c4 :: c5 :: rest =>
    let rank := safe_int c0.text
    let song := String.mk ((pyStrip c1.text.data).filter (fun c => c ≠ '"'))
    let artist := String.mk (pyStrip c2.text.data)
    match toAbsoluteMeasure c3.text with
    | Except.error e => Except.error e
    | Except.ok streams =>
      let release_year := parse_year c4.text
      let daily_average :=
        safe_floatL ((lowerL (pyStrip (beforeBracket c5.text.data))).filter (fun c => c ≠ ','))
      let record_date :=
        match c3.dateSpan with
        | some t => parse_date (String.mk (pyStrip t.data))
        | none => none
      let days_on_record :=
        match rest with
        | [] => none
        | c6 :: _ => safe_intL (pyStrip (beforeBracket c6.text.data))
      Except.ok
        ⟨today, rank, song, artist, streams, release_year, daily_average,
          record_date, days_on_record⟩
  | _ => Except.error ()

/-- Model of the row loop of the assembler (src/app.py lines 156-207): rows
with fewer than six cells are skipped by the pre-check, rows whose processing
raises are caught, logged and skipped; every other row contributes one record,
in table order. The returned count is the number of skipped rows (either
way), the observable the specification reports. -/
def processRows (today : String) : List (List Cell) → List RowRecord × Nat
  | [] => ([], 0)
  | row :: rest =>
    if row.length < 6 then
      ((processRows today rest).1, (processRows today rest).2 + 1)
    else
      match processRow today row with
      | Except.ok r => (r :: (processRows today rest).1, (processRows today rest).2)
      | Except.error _ => ((processRows today rest).1, (processRows today rest).2 + 1)

/-- Natural key of the `UNIQUE(scraping_date, rank, song, artist)` constraint
(src/app.py line 110). -/
def natKey (r : RowRecord) : String × Option Int × String × String :=
  (r.scraping_date, r.rank, r.song, r.artist)

/-- The rows of a batch have pairwise-distinct natural keys. -/
def uniqueOk : List RowRecord → Bool
  | [] => true
  | r :: t => !(t.any (fun x => natKey x = natKey r)) && uniqueOk t

/-- Model of the NOT NULL constraints of `create_database` (src/app.py lines
98-112) on the fields the scraper fills: `scraping_date`, `song` and `artist`
are plain strings here and structurally non-null, so the only constraint that
can fail on an assembled record is `rank INTEGER NOT NULL`; `streams`,
`release_year`, `daily_average`, `record_date` and `days_on_record` carry no
NOT NULL constraint. -/
def schemaAccepts (r : RowRecord) : Bool := r.rank.isSome

/-- An insert of `rs` into `store` succeeds iff every inserted row passes the
NOT NULL constraints of the schema (`rank INTEGER NOT NULL`; the other filled
columns are structurally non-null here) and no inserted row clashes, under
`UNIQUE(scraping_date, rank, song, artist)`, with the table or with an
earlier row of the same statement. -/
def insertOk (rs store : List RowRecord) : Bool :=
  rs.all schemaAccepts && uniqueOk rs &&
    rs.all (fun r => store.all (fun x => natKey x ≠ natKey r))

/-- The committed `DELETE FROM spotify_records WHERE scraping_date = d`
(src/app.py lines 122-127). -/
def deleteDate (d : String) (store : List RowRecord) : List RowRecord :=
  store.filter (fun r => r.scraping_date ≠ d)

/-- The `df.to_sql(..., if_exists='append')` call (src/app.py line 213): one
transaction appending the batch, rejected wholesale (rolled back) on any
constraint violation — a NOT NULL failure or a uniqueness clash. -/
def insertBatch (rs store : List RowRecord) : Option (List RowRecord) :=
  if insertOk rs store then some (store ++ rs) else none

/-- The write path of one run over the store, given the already-assembled
batch: first the committed delete of the rows of the collection date, then — only
when the batch is nonempty — the append; the `Bool` reports success. On a
failed insert the delete remains committed. Together the two steps form the
`replaceBatch(date, records)` of the specification. -/
def replaceBatch (d : String) (rs store : List RowRecord) : List RowRecord × Bool :=
  if rs.isEmpty then (deleteDate d store, true)
  else
    match insertBatch rs (deleteDate d store) with
    | some s2 => (s2, true)
    | none => (deleteDate d store, false)

/-- One run of `scrape_spotify_records` seen from the store: the delete for
the collection date is committed first (src/app.py lines 120-127); then the
fetch/table-location/assembly stage runs, `none` standing for any failure
there (network error, missing table), which propagates after the delete has
already been committed; on success the batch is written. -/
def scrapeRun (d : String) (fetched : Option (List RowRecord)) (store : List RowRecord) :
    List RowRecord × Bool :=
  match fetched with
  | none => (deleteDate d store, false)
  | some rs => replaceBatch d rs store

/-- The rows the store holds for one collection date, in order. -/
def rowsForDate (d : String) (store : List RowRecord) : List RowRecord :=
  store.filter (fun r => r.scraping_date = d)

/-- Whether the normalized measure text contains a unit word (the tests of
src/app.py lines 169 and 171). -/
def measureUnitPresent (s : String) : Bool :=
  hasSub "billion".data (normMeasureText s) || hasSub "million".data (normMeasureText s)

/-- The numeric part of the measure text: the `safe_float` result that the
code multiplies by the unit factor (or returns directly when no unit word is
present). -/
def measureNumericPart (s : String) : Option ℚ :=
  if hasSub "billion".data (normMeasureText s) then
    safe_floatL (removeAllSub " billion".data (normMeasureText s))
  else if hasSub "million".data (normMeasureText s) then
    safe_floatL (removeAllSub " million".data (normMeasureText s))
  else safe_floatL ((normMeasureText s).filter (fun c => c ≠ ','))

/-- Row 1 of the end-to-end scenario of the specification: well-formed. -/
def rowWellFormed : List Cell :=
  [cellOf "1", cellOf "Song A", cellOf "Artist A", cellOf "2.5 billion", cellOf "2020",
    cellOf "5 million"]

/-- Row 2 of the scenario: only four cells, malformed. -/
def rowMalformed : List Cell :=
  [cellOf "2", cellOf "Song B", cellOf "Artist B", cellOf "1 billion"]

/-- Row 3 of the scenario: measure `800 million`. -/
def rowMillion : List Cell :=
  [cellOf "3", cellOf "Song C", cellOf "Artist C", cellOf "800 million", cellOf "2021",
    cellOf "3 million"]

/-- A six-cell row whose rank cell is not numeric. -/
def rowBadRank : List Cell :=
  [cellOf "x", cellOf "Song A", cellOf "Artist A", cellOf "2.5 billion", cellOf "2020",
    cellOf "5 million"]

/-- The record the assembler produces for `rowBadRank`: its rank is null. -/
def recBadRank : RowRecord :=
  ⟨"2025-01-01", none, "Song A", "Artist A", some 2500000000, some 2020, none, none, none⟩

/-- A six-cell row whose rank parses but every optional field fails soft. -/
def rowNullOpt : List Cell :=
  [cellOf "7", cellOf "Song E", cellOf "Artist E", cellOf "n/a", cellOf "n/a", cellOf "n/a"]

/-- The record the assembler produces for `rowNullOpt`. -/
def recNullOpt : RowRecord :=
  ⟨"2025-01-01", some 7, "Song E", "Artist E", none, none, none, none, none⟩

/-- A six-cell row whose measure has a unit word but an unparsable number, so
its processing raises. -/
def rowBadMeasure : List Cell :=
  [cellOf "4", cellOf "Song D", cellOf "Artist D", cellOf "x billion", cellOf "2020",
    cellOf "1 million"]

/-- A store row for the collection date `2025-01-01`, present before a run. -/
def priorRow : RowRecord :=
  ⟨"2025-01-01", some 1, "Song A", "Artist A", some 100, none, none, none, none⟩

/-- A second schema-valid record for `2025-01-01`, key-distinct from
`recNullOpt`. -/
def recSecond : RowRecord :=
  ⟨"2025-01-01", some 2, "Song B", "Artist B", some 42, none, none, none, none⟩

/-- The `mkRat` form of `mulPow10` really is multiplication by `10 ^ k`. -/
theorem mulPow10_eq (q : ℚ) (k : Nat) : mulPow10 q k = q * 10 ^ k := by
  rw [mulPow10, Rat.mkRat_eq_div]
  push_cast
  rw [mul_div_right_comm, Rat.num_div_den]

/-- C1 counterexample: with one prior row for the date in the store, a run
that fails after the delete (fetch or table location failing) leaves the
store with no row for that date — the prior state is not retained, because
the delete was committed in its own earlier transaction. -/
theorem run_failure_after_delete_loses_rows :
    rowsForDate "2025-01-01" [priorRow] = [priorRow] ∧
    (scrapeRun "2025-01-01" none [priorRow]).2 = false ∧
    rowsForDate "2025-01-01" (scrapeRun "2025-01-01" none [priorRow]).1 = [] := by
  refine ⟨by decide, by decide, by decide⟩

/-- C1 amended: when a run fails after the write path has begun (the fetch or
table-location step failing after the rows of the date were deleted), the store
durably contains the prior store minus every row of the collection date —
zero rows for that date — because the delete is committed in a separate
transaction before the fetch, and nothing rolls it back. -/
theorem run_failure_leaves_zero_rows_for_date (d : String) (store : List RowRecord) :
    scrapeRun d none store = (deleteDate d store, false) ∧
    rowsForDate d (scrapeRun d none store).1 = [] := by
  constructor
  · rfl
  · show List.filter _ (List.filter _ store) = []
    rw [List.filter_filter]
    apply List.filter_eq_nil_iff.mpr
    intro a _
    by_cases h : a.scraping_date = d <;> simp [h]

/-- C3 counterexample: a measure text containing `billion` whose numeric part
does not parse makes the conversion raise (`None * 1e9` is a `TypeError`),
instead of returning null. -/
theorem toAbsoluteMeasure_raises_on_unparsable_unit :
    toAbsoluteMeasure "x billion" = Except.error () := by decide

/-- C3 amended: whenever the measure text contains a unit word and its
numeric part fails to parse (`safe_float` gives null), `toAbsoluteMeasure`
raises a `TypeError` — the null does not propagate through the unit
multiplication; the exception is only caught later by the per-row handler. -/
theorem toAbsoluteMeasure_error_of_unit_and_no_parse (s : String)
    (hu : measureUnitPresent s = true) (hn : measureNumericPart s = none) :
    toAbsoluteMeasure s = Except.error () := by
  unfold toAbsoluteMeasure
  unfold measureUnitPresent at hu
  unfold measureNumericPart at hn
  by_cases hb : hasSub "billion".data (normMeasureText s) = true
  · rw [if_pos hb]
    rw [if_pos hb] at hn
    rw [hn]
  · rw [if_neg hb]
    rw [if_neg hb] at hn
    have hm : hasSub "million".data (normMeasureText s) = true := by
      simp only [Bool.not_eq_true] at hb
      rw [hb, Bool.false_or] at hu
      exact hu
    rw [if_pos hm]
    rw [if_pos hm] at hn
    rw [hn]

/-- C3 witness: the amended statement applied at the concrete input
`y million`, whose numeric part `y` does not parse. -/
theorem toAbsoluteMeasure_error_witness :
    measureUnitPresent "y million" = true ∧ measureNumericPart "y million" = none ∧
    toAbsoluteMeasure "y million" = Except.error () :=
  ⟨by decide, by decide,
    toAbsoluteMeasure_error_of_unit_and_no_parse "y million" (by decide) (by decide)⟩

/-- C4: on the three-row scenario table, the assembler yields exactly two
records and a skip count of one, and the two records' measures are `2.5e9`
and `8e8`, in that order. -/
theorem assembler_three_row_scenario :
    (processRows "2025-01-01" [rowWellFormed, rowMalformed, rowMillion]).1.length = 2 ∧
    (processRows "2025-01-01" [rowWellFormed, rowMalformed, rowMillion]).2 = 1 ∧
    (processRows "2025-01-01" [rowWellFormed, rowMalformed, rowMillion]).1.map
        (fun r => r.streams) = [some 2500000000, some 800000000] := by
  refine ⟨by decide, by decide, by decide⟩

/-- C5 counterexample: the assembler happily produces a record with a null
rank when the rank cell is not numeric (`safe_int` fails soft and nothing
checks the result), so not every record it produces has a non-null rank. -/
theorem assembler_can_produce_null_rank :
    processRow "2025-01-01" rowBadRank = Except.ok recBadRank ∧ recBadRank.rank = none := by
  refine ⟨by decide, by decide⟩

/-- C5 amended: the store schema is what enforces the rank invariant — a
record passes its NOT NULL constraints exactly when its rank is non-null,
and a record with every other numeric/date field null is accepted — but the
assembler itself can produce a null-rank record (which the store would then
reject at insert time). -/
theorem schema_rank_not_null_rest_nullable :
    (∀ r : RowRecord, schemaAccepts r = true ↔ r.rank.isSome = true) ∧
    (processRow "2025-01-01" rowNullOpt = Except.ok recNullOpt ∧
      schemaAccepts recNullOpt = true ∧
      recNullOpt.streams = none ∧ recNullOpt.release_year = none ∧
      recNullOpt.daily_average = none ∧ recNullOpt.record_date = none ∧
      recNullOpt.days_on_record = none) ∧
    (processRow "2025-01-01" rowBadRank = Except.ok recBadRank ∧
      schemaAccepts recBadRank = false) := by
  refine ⟨fun r => Iff.rfl, ⟨by decide, by decide, by decide, by decide, by decide, by decide⟩,
    by decide, by decide⟩

/-- C6: the four specification examples of `toAbsoluteMeasure`: unit words
expand to absolute magnitudes, a comma-separated bare number parses, and the
empty string gives null. -/
theorem toAbsoluteMeasure_examples :
    toAbsoluteMeasure "1.2 billion" = Except.ok (some 1200000000) ∧
    toAbsoluteMeasure "350 million" = Except.ok (some 350000000) ∧
    toAbsoluteMeasure "4,200" = Except.ok (some 4200) ∧
    toAbsoluteMeasure "" = Except.ok none := by
  refine ⟨by decide, by decide, by decide, by decide⟩

/-- Records whose natural keys share no date cannot clash. -/
theorem natKey_ne_of_date_ne {x r : RowRecord} (h : x.scraping_date ≠ r.scraping_date) :
    natKey x ≠ natKey r := fun he => h (congrArg (fun k => k.1) he)

/-- Deleting a date distributes over append. -/
theorem deleteDate_append (d : String) (a b : List RowRecord) :
    deleteDate d (a ++ b) = deleteDate d a ++ deleteDate d b := by
  simp [deleteDate]

/-- Deleting a date twice equals deleting it once. -/
theorem deleteDate_idem (d : String) (store : List RowRecord) :
    deleteDate d (deleteDate d store) = deleteDate d store := by
  simp only [deleteDate, List.filter_filter]
  apply List.filter_congr
  intro a _
  by_cases h : a.scraping_date = d <;> simp [h]

/-- Deleting a date from a batch entirely of that date empties it. -/
theorem deleteDate_all_eq (d : String) (rs : List RowRecord)
    (hd : ∀ r ∈ rs, r.scraping_date = d) : deleteDate d rs = [] := by
  apply List.filter_eq_nil_iff.mpr
  intro a ha
  simp [hd a ha]

/-- Reading a date from a batch entirely of that date returns the batch. -/
theorem rowsForDate_all_eq (d : String) (rs : List RowRecord)
    (hd : ∀ r ∈ rs, r.scraping_date = d) : rowsForDate d rs = rs := by
  apply List.filter_eq_self.mpr
  intro a ha
  simp [hd a ha]

/-- After the rows of the date are deleted, the store holds none for that date. -/
theorem rowsForDate_deleteDate (d : String) (store : List RowRecord) :
    rowsForDate d (deleteDate d store) = [] := by
  show List.filter _ (List.filter _ store) = []
  rw [List.filter_filter]
  apply List.filter_eq_nil_iff.mpr
  intro a _
  by_cases h : a.scraping_date = d <;> simp [h]

/-- An insert whose batch passes the NOT NULL constraints and has
pairwise-distinct keys, none clashing with the table, succeeds. -/
theorem insertOk_of_disjoint (rs store : List RowRecord)
    (hs : rs.all schemaAccepts = true) (hu : uniqueOk rs = true)
    (hdisj : ∀ r ∈ rs, ∀ x ∈ store, natKey x ≠ natKey r) : insertOk rs store = true := by
  rw [insertOk, hs, hu, Bool.true_and, Bool.true_and, List.all_eq_true]
  intro r hr
  rw [List.all_eq_true]
  intro x hx
  simpa using hdisj r hr x hx

/-- A schema-accepted batch dated `d` never clashes with a store from which
date `d` was deleted, so its insert succeeds there. -/
theorem insertOk_after_delete (d : String) (rs store : List RowRecord)
    (hd : ∀ r ∈ rs, r.scraping_date = d) (hs : rs.all schemaAccepts = true)
    (hu : uniqueOk rs = true) :
    insertOk rs (deleteDate d store) = true := by
  apply insertOk_of_disjoint rs _ hs hu
  intro r hr x hx
  have hxd : x.scraping_date ≠ d := by
    have hm := List.mem_filter.mp hx
    simpa using hm.2
  exact natKey_ne_of_date_ne (by rw [hd r hr]; exact hxd)

/-- C2: running the replace-batch write path twice with the same date and the
same records (all stamped with that date, passing the NOT NULL constraints of
the schema, pairwise-distinct keys as the table rows are — a batch the store
accepts at all) succeeds both times, leaves the store unchanged by the second
run, and the store then contains exactly the batch for that date — no
duplicate accumulation. -/
theorem replaceBatch_twice_exact (d : String) (rs store : List RowRecord)
    (hd : ∀ r ∈ rs, r.scraping_date = d) (hs : rs.all schemaAccepts = true)
    (hu : uniqueOk rs = true) :
    (replaceBatch d rs store).2 = true ∧
    (replaceBatch d rs (replaceBatch d rs store).1).2 = true ∧
    rowsForDate d (replaceBatch d rs (replaceBatch d rs store).1).1 = rs ∧
    (replaceBatch d rs (replaceBatch d rs store).1).1 = (replaceBatch d rs store).1 := by
  by_cases hne : rs.isEmpty = true
  · have hrs : rs = [] := List.isEmpty_iff.mp hne
    subst hrs
    simp [replaceBatch, deleteDate_idem, rowsForDate_deleteDate]
  · have hne' : rs.isEmpty = false := Bool.not_eq_true _ ▸ Bool.eq_false_iff.mpr (fun h => hne h)
    have hfirst : replaceBatch d rs store = (deleteDate d store ++ rs, true) := by
      simp [replaceBatch, hne', insertBatch, insertOk_after_delete d rs store hd hs hu]
    have hdel2 : deleteDate d (deleteDate d store ++ rs) = deleteDate d store := by
      rw [deleteDate_append, deleteDate_idem, deleteDate_all_eq d rs hd, List.append_nil]
    have hsecond : replaceBatch d rs (deleteDate d store ++ rs) = (deleteDate d store ++ rs, true) := by
      simp [replaceBatch, hne', insertBatch, hdel2, insertOk_after_delete d rs store hd hs hu]
    refine ⟨by rw [hfirst], by rw [hfirst, hsecond], ?_, by rw [hfirst, hsecond]⟩
    rw [hfirst, hsecond]
    show rowsForDate d (deleteDate d store ++ rs) = rs
    show List.filter _ _ = rs
    rw [List.filter_append]
    rw [show List.filter (fun r => decide (r.scraping_date = d)) (deleteDate d store) = rowsForDate d (deleteDate d store) from rfl]
    rw [rowsForDate_deleteDate, List.nil_append]
    exact rowsForDate_all_eq d rs hd

/-- C2 witness: the idempotence statement at a concrete date, a concrete
schema-valid batch and a concrete store (the prior store holding a row of
another date and a stale row of the same date). -/
theorem replaceBatch_twice_exact_witness :
    (∀ r ∈ [recNullOpt, recSecond], r.scraping_date = "2025-01-01") ∧
    List.all [recNullOpt, recSecond] schemaAccepts = true ∧
    uniqueOk [recNullOpt, recSecond] = true ∧
    ((replaceBatch "2025-01-01" [recNullOpt, recSecond]
        [⟨"2024-12-31", some 1, "Old", "Older", none, none, none, none, none⟩, priorRow]).2 = true ∧
      (replaceBatch "2025-01-01" [recNullOpt, recSecond]
        (replaceBatch "2025-01-01" [recNullOpt, recSecond]
          [⟨"2024-12-31", some 1, "Old", "Older", none, none, none, none, none⟩, priorRow]).1).2 = true ∧
      rowsForDate "2025-01-01"
        (replaceBatch "2025-01-01" [recNullOpt, recSecond]
          (replaceBatch "2025-01-01" [recNullOpt, recSecond]
            [⟨"2024-12-31", some 1, "Old", "Older", none, none, none, none, none⟩, priorRow]).1).1
        = [recNullOpt, recSecond] ∧
      (replaceBatch "2025-01-01" [recNullOpt, recSecond]
        (replaceBatch "2025-01-01" [recNullOpt, recSecond]
          [⟨"2024-12-31", some 1, "Old", "Older", none, none, none, none, none⟩, priorRow]).1).1
        = (replaceBatch "2025-01-01" [recNullOpt, recSecond]
            [⟨"2024-12-31", some 1, "Old", "Older", none, none, none, none, none⟩, priorRow]).1) :=
  ⟨by decide, by decide, by decide,
    replaceBatch_twice_exact "2025-01-01" [recNullOpt, recSecond]
      [⟨"2024-12-31", some 1, "Old", "Older", none, none, none, none, none⟩, priorRow]
      (by decide) (by decide) (by decide)⟩

/-- Unfolding of the assembler loop on a short row. -/
theorem processRows_cons_short (today : String) (row : List Cell) (rest : List (List Cell))
    (h6 : row.length < 6) :
    processRows today (row :: rest) =
      ((processRows today rest).1, (processRows today rest).2 + 1) := by
  simp [processRows, h6]

/-- Unfolding of the assembler loop on a row that parses. -/
theorem processRows_cons_ok (today : String) (row : List Cell) (rest : List (List Cell))
    (r : RowRecord) (h6 : ¬ row.length < 6) (hp : processRow today row = Except.ok r) :
    processRows today (row :: rest) =
      (r :: (processRows today rest).1, (processRows today rest).2) := by
  simp [processRows, h6, hp]

/-- Unfolding of the assembler loop on a row whose processing raises. -/
theorem processRows_cons_err (today : String) (row : List Cell) (rest : List (List Cell))
    (h6 : ¬ row.length < 6) (hp : processRow today row = Except.error ()) :
    processRows today (row :: rest) =
      ((processRows today rest).1, (processRows today rest).2 + 1) := by
  simp [processRows, h6, hp]

/-- The assembler loop splits over concatenation of row lists: records
concatenate and skip counts add. -/
theorem processRows_append (today : String) (xs ys : List (List Cell)) :
    processRows today (xs ++ ys) =
      ((processRows today xs).1 ++ (processRows today ys).1,
        (processRows today xs).2 + (processRows today ys).2) := by
  induction xs with
  | nil => simp [processRows]
  | cons row rest ih =>
    by_cases h6 : row.length < 6
    · rw [List.cons_append, processRows_cons_short today row _ h6,
        processRows_cons_short today row _ h6, ih]
      refine Prod.ext rfl ?_
      show (processRows today rest).2 + (processRows today ys).2 + 1 = _
      omega
    · cases hp : processRow today row with
      | ok r =>
        rw [List.cons_append, processRows_cons_ok today row _ r h6 hp,
          processRows_cons_ok today row _ r h6 hp, ih]
        exact Prod.ext (by simp) rfl
      | error e =>
        cases e
        rw [List.cons_append, processRows_cons_err today row _ h6 hp,
          processRows_cons_err today row _ h6 hp, ih]
        refine Prod.ext rfl ?_
        show (processRows today rest).2 + (processRows today ys).2 + 1 = _
        omega

/-- C9: a row whose processing raises is simply skipped — the rows before and
after it contribute exactly the records they would contribute on their own,
and the bad row adds one to the skip count; one bad row never aborts the
batch. -/
theorem bad_row_isolated (today : String) (pre post : List (List Cell)) (bad : List Cell)
    (hlen : ¬ bad.length < 6) (hbad : processRow today bad = Except.error ()) :
    processRows today (pre ++ bad :: post) =
      ((processRows today pre).1 ++ (processRows today post).1,
        (processRows today pre).2 + (processRows today post).2 + 1) := by
  rw [processRows_append]
  have hmid : processRows today (bad :: post) =
      ((processRows today post).1, (processRows today post).2 + 1) := by
    simp only [processRows, hlen, if_false, hbad]
  rw [hmid]
  refine Prod.ext rfl ?_
  simp only
  omega

/-- C9 witness: the isolation statement at a concrete table — a good row,
then a row whose unit multiplication raises, then another good row. -/
theorem bad_row_isolated_witness :
    ¬ rowBadMeasure.length < 6 ∧
    processRow "2025-01-01" rowBadMeasure = Except.error () ∧
    processRows "2025-01-01" ([rowWellFormed] ++ rowBadMeasure :: [rowMillion]) =
      ((processRows "2025-01-01" [rowWellFormed]).1 ++ (processRows "2025-01-01" [rowMillion]).1,
        (processRows "2025-01-01" [rowWellFormed]).2 + (processRows "2025-01-01" [rowMillion]).2
          + 1) :=
  ⟨by decide, by decide,
    bad_row_isolated "2025-01-01" [rowWellFormed] [rowMillion] rowBadMeasure
      (by decide) (by decide)⟩

/-- C7: `parse_date` maps `29 November 2019` to `2019-11-29`, maps the
ISO-shaped `2019-11-29` to null, and for every input not of the strict
`day month-name year` shape returns null — no fallback formats, no raise
(the model is a total function). -/
theorem parse_date_strict_shape :
    parse_date "29 November 2019" = some "2019-11-29" ∧
    parse_date "2019-11-29" = none ∧
    ∀ s : String, strictDMYb s.data = false → parse_date s = none := by
  refine ⟨by decide, by decide, ?_⟩
  intro s h
  unfold parse_date parse_dateL
  rw [h]
  by_cases he : s.data.isEmpty = true <;> simp [he]

/-- C7 witness: the strictness statement applied at the concrete month-first
input `July 4 2019`, which is not of the day month-name year shape. -/
theorem parse_date_strict_shape_witness :
    strictDMYb "July 4 2019".data = false ∧ parse_date "July 4 2019" = none :=
  ⟨by decide, parse_date_strict_shape.2.2 "July 4 2019" (by decide)⟩

/-- C8: `parse_year` computes exactly the step pipeline of the specification —
footnote stripping, then first `19xx`/`20xx` token, then pure-digit text,
then the last of at least three whitespace-separated tokens, null otherwise
or on an unparsable chosen token — and the three example values hold. -/
theorem parse_year_matches_spec_steps :
    (∀ s : String, parse_year s = extractYearSpec s) ∧
    parse_year "29 November 2019[3]" = some 2019 ∧
    parse_year "2021" = some 2021 ∧
    parse_year "unknown" = none := by
  refine ⟨?_, by decide, by decide, by decide⟩
  intro s
  unfold parse_year extractYearSpec stepYearToken stepPureDigits stepLongFormLast
  by_cases he : s.data.isEmpty = true
  · simp [he]
  · simp only [he, if_false]
    cases hy : yearSearch (yearCleanText s) with
    | some y => simp [Option.orElse]
    | none =>
      by_cases hd : isDigitsL (yearCleanText s) = true
      · simp [hd, Option.orElse]
      · by_cases h3 : 3 ≤ (wsTokens (yearCleanText s)).length <;>
          simp [hd, h3, Option.orElse]

/-- Whitespace is never a comma. -/
theorem ws_ne_comma (c : Char) (hc : isWs c = true) : (decide (c ≠ ',')) = true := by
  unfold isWs at hc
  simp only [Bool.or_eq_true, decide_eq_true_eq] at hc
  rcases hc with ((((h | h) | h) | h) | h) | h <;> subst h <;> decide

/-- Filtering by a predicate that keeps whitespace fixes an all-whitespace
list. -/
theorem filter_of_allWs (p : Char → Bool) (hp : ∀ c, isWs c = true → p c = true)
    (w : List Char) (hw : ∀ c ∈ w, isWs c = true) : w.filter p = w :=
  List.filter_eq_self.mpr fun a ha => hp a (hw a ha)

/-- Dropping whitespace from an all-whitespace list empties it. -/
theorem dropWhile_of_allWs (w : List Char) (hw : ∀ c ∈ w, isWs c = true) :
    w.dropWhile isWs = [] :=
  List.dropWhile_eq_nil_iff.mpr hw

/-- Left trim ignores whatever commas-and-the-like a filter removed from the
already-trimmed part: trimming after filtering equals trimming after
filtering the left-trimmed list. -/
theorem trimLeft_filter (p : Char → Bool) (hp : ∀ c, isWs c = true → p c = true)
    (l : List Char) : trimLeft (List.filter p l) = trimLeft (List.filter p (trimLeft l)) := by
  have hw : ∀ c ∈ l.takeWhile isWs, isWs c = true := fun c hc => List.mem_takeWhile_imp hc
  have h1 : List.filter p l =
      l.takeWhile isWs ++ List.filter p (l.dropWhile isWs) := by
    conv_lhs => rw [← List.takeWhile_append_dropWhile (p := isWs) (l := l)]
    rw [List.filter_append, filter_of_allWs p hp _ hw]
  rw [h1]
  unfold trimLeft
  rw [List.dropWhile_append]
  simp [dropWhile_of_allWs _ hw]

/-- Right trim absorbs an all-whitespace suffix. -/
theorem trimRight_append_ws (x v : List Char) (hv : ∀ c ∈ v, isWs c = true) :
    trimRight (x ++ v) = trimRight x := by
  unfold trimRight
  rw [List.reverse_append, List.dropWhile_append]
  have : v.reverse.dropWhile isWs = [] :=
    dropWhile_of_allWs _ (fun c hc => hv c (List.mem_reverse.mp hc))
  simp [this]

/-- Stripping commutes with comma removal (for any filter keeping
whitespace): stripping the filtered stripped text equals stripping the
filtered raw text. -/
theorem pyStrip_filter_pyStrip (p : Char → Bool) (hp : ∀ c, isWs c = true → p c = true)
    (l : List Char) :
    pyStrip (List.filter p (pyStrip l)) = pyStrip (List.filter p l) := by
  unfold pyStrip
  rw [trimLeft_filter p hp l]
  generalize trimLeft l = r
  have hv : ∀ c ∈ (r.reverse.takeWhile isWs).reverse, isWs c = true := fun c hc =>
    List.mem_takeWhile_imp (List.mem_reverse.mp hc)
  have hrv : trimRight r ++ (r.reverse.takeWhile isWs).reverse = r := by
    unfold trimRight
    rw [← List.reverse_append, List.takeWhile_append_dropWhile, List.reverse_reverse]
  have hfil : List.filter p r =
      List.filter p (trimRight r) ++ (r.reverse.takeWhile isWs).reverse := by
    conv_lhs => rw [← hrv]
    rw [List.filter_append, filter_of_allWs p hp _ hv]
  rw [hfil]
  unfold trimLeft
  rw [List.dropWhile_append]
  by_cases hA : ((List.filter p (trimRight r)).dropWhile isWs).isEmpty = true
  · rw [if_pos hA]
    rw [dropWhile_of_allWs _ hv]
    rw [List.isEmpty_iff.mp hA]
  · rw [if_neg hA]
    exact (trimRight_append_ws _ _ hv).symm

/-- C10: the numeric conversions delete every comma anywhere in the input
before parsing — `safe_float`/`safe_int` equal float/int parsing of the
input with all `,` characters removed (the float parser itself ignoring
surrounding whitespace, as the Python parser does) — so `safe_int "1,2"` is `12` and
`safe_float "4,2,0,0"` is `4200`, not null. -/
theorem safe_conversions_delete_all_commas :
    (∀ l : List Char, safe_floatL l =
      if l.isEmpty then none else pyFloat (l.filter (fun c => c ≠ ','))) ∧
    (∀ l : List Char, safe_intL l =
      if l.isEmpty then none else (pyFloat (l.filter (fun c => c ≠ ','))).map ratTrunc) ∧
    safe_int "1,2" = some 12 ∧
    safe_float "4,2,0,0" = some 4200 := by
  have hfl : ∀ l : List Char, safe_floatL l =
      if l.isEmpty then none else pyFloat (l.filter (fun c => c ≠ ',')) := by
    intro l
    by_cases he : l.isEmpty = true
    · simp [safe_floatL, he]
    · rw [if_neg he]
      unfold safe_floatL
      rw [if_neg he]
      unfold pyFloat
      exact congrArg pyFloatCore (pyStrip_filter_pyStrip _ ws_ne_comma l)
  refine ⟨hfl, ?_, by decide, by decide⟩
  intro l
  unfold safe_intL
  rw [hfl l]
  by_cases he : l.isEmpty = true <;> simp [he]

end SpotifyScraper
